import Mathlib

/-!
Verification of the population-statistics dashboard (src/app.py) against its
natural-language specification.

The development shallowly embeds the storage layer (class DatabaseManager:
connection retry, init_db, save_data, get_all_data, get_aggregated_stats) and
the two fetch/normalize functions (fetch_api_data, get_population_world_bank).

Modelling conventions:
- a psycopg2 connection is an abstract token; the field conn is Option Conn,
  with none standing for the Python None left behind by a failed _connect;
- the countries table is a list of rows in insertion order; the SERIAL id
  column is an explicit Nat counter (TRUNCATE does not restart the sequence);
- the BIGINT population column is Int; the FLOAT area column is carried as an
  opaque integer code, since no arithmetic is ever performed on area anywhere
  in the program (it is fetched, stored and read back unchanged);
- SQL window functions ROW_NUMBER() OVER (PARTITION BY region ORDER BY
  population DESC/ASC) are embedded by ranking each row inside its partition
  with the strict total order (population, then position in the underlying
  scan): peers with equal population are ordered by the scan order of the
  table, which is insertion order - the observable behavior of the reference
  engine on this query and the tie-break the specification describes;
- fallibility of the bulk insert (constraint violation on some record) is a
  Boolean oracle passed to save_data; psycopg2 executemany stops at the first
  failing record and the surrounding transaction is then never committed;
- Python exceptions are the inductive PyErr; the message text of the
  AttributeError raised when the connection is None is kept verbatim (modulo
  quoting) so that claims about the wording of errors can be settled.
-/

/-- Abstract token for a live psycopg2 connection. -/
abbrev Conn := Unit

/-- Python exceptions that the embedded storage operations can raise.
    attrNoneCursor is the AttributeError raised by self.conn.cursor() when
    self.conn is None; pandasNoCon is the failure of pd.read_sql_query when
    handed a None connection; insertFailed i is a database error raised by
    cur.executemany at record index i. -/
inductive PyErr where
  | attrNoneCursor : PyErr
  | pandasNoCon : PyErr
  | insertFailed : Nat → PyErr
deriving DecidableEq

/-- Rendered message of an embedded Python exception (used to check the
    wording of errors; Python quoting characters are omitted). -/
def pyErrMsg : PyErr → String
  | .attrNoneCursor => "AttributeError: NoneType object has no attribute cursor"
  | .pandasNoCon => "pandas could not build a SQL engine from object None"
  | .insertFailed _ => "psycopg2 database error during executemany"

/-- Checks that the pattern is an initial segment of the character list. -/
def leadsWith : List Char → List Char → Bool
  | [], _ => true
  | _ :: _, [] => false
  | p :: ps, c :: cs => p == c && leadsWith ps cs

/-- Checks that the pattern occurs as a contiguous substring. -/
def containsChars (pat : List Char) : List Char → Bool
  | [] => leadsWith pat []
  | c :: cs => leadsWith pat (c :: cs) || containsChars pat cs

/-- Normalized record produced by fetch_api_data for one country: the tuple
    (name, cca2, cca3, region, population, area) appended to countries_list
    (src/app.py lines 131-138). -/
structure Record where
  name : String
  cca2 : String
  cca3 : String
  region : String
  population : Int
  area : Int
deriving DecidableEq

/-- Row of the countries table (src/app.py lines 41-67): id SERIAL PRIMARY
    KEY plus the six data columns. The region column is nullable in the
    schema, hence Option String. -/
structure Row where
  id : Nat
  name : String
  cca2 : String
  cca3 : String
  region : Option String
  population : Int
  area : Int
deriving DecidableEq

/-- State of the countries table: committed rows in insertion order, plus the
    next value of the id sequence. -/
structure DbState where
  table : List Row
  nextId : Nat
deriving DecidableEq

/-- Row inserted for a record by the INSERT of save_data (src/app.py lines
    77-80): the six record fields, with the id supplied by the sequence. -/
def toRow (i : Nat) (rec : Record) : Row :=
  { id := i, name := rec.name, cca2 := rec.cca2, cca3 := rec.cca3,
    region := some rec.region, population := rec.population, area := rec.area }

/-- Rows produced by inserting the records one after another starting at
    sequence value n, as cur.executemany does. -/
def insertRows (n : Nat) : List Record → List Row
  | [] => []
  | rec :: recs => toRow n rec :: insertRows (n + 1) recs

/-- Index of the first record rejected by the database, if any: psycopg2
    executemany runs the statements in order and raises at the first
    failure. The oracle insOk abstracts the verdict of the database on one
    record. -/
def firstFailure (insOk : Record → Bool) : List Record → Option Nat
  | [] => none
  | rec :: recs =>
    if insOk rec then (firstFailure insOk recs).map (· + 1) else some 0

/-- Embeds DatabaseManager.init_db (src/app.py lines 39-72): CREATE TABLE IF
    NOT EXISTS (a no-op on the stored rows) followed by TRUNCATE TABLE, both
    executed on one cursor and then committed. TRUNCATE without RESTART
    IDENTITY keeps the id sequence. With a None connection,
    self.conn.cursor() raises an AttributeError before anything runs. -/
def init_db (conn : Option Conn) (st : DbState) : DbState × Option PyErr :=
  match conn with
  | none => (st, some .attrNoneCursor)
  | some _ => ({ st with table := [] }, none)

/-- Embeds DatabaseManager.save_data (src/app.py lines 74-86): it calls
    init_db (whose commit makes the truncation durable on its own), then runs
    cur.executemany over the record tuples and commits. When executemany
    raises at record i, the commit is never reached, so the last committed
    state is the empty table left by init_db; the ids consumed by the
    attempted inserts stay consumed (sequences are non-transactional). The
    raised exception propagates to the caller unwrapped. -/
def save_data (conn : Option Conn) (st : DbState) (records : List Record)
    (insOk : Record → Bool) : DbState × Option PyErr :=
  match conn with
  | none => (st, some .attrNoneCursor)
  | some c =>
    let st1 := (init_db (some c) st).1
    match firstFailure insOk records with
    | some i => ({ st1 with nextId := st1.nextId + i + 1 }, some (.insertFailed i))
    | none =>
      ({ table := insertRows st1.nextId records,
         nextId := st1.nextId + records.length }, none)

/-- Columns returned by the SELECT of get_all_data (src/app.py line 90):
    name, cca2, cca3, region, population, area - everything but id. -/
structure SelectedRow where
  name : String
  cca2 : String
  cca3 : String
  region : Option String
  population : Int
  area : Int
deriving DecidableEq

/-- Projection of a stored row onto the selected columns. -/
def rowFields (r : Row) : SelectedRow :=
  { name := r.name, cca2 := r.cca2, cca3 := r.cca3, region := r.region,
    population := r.population, area := r.area }

/-- Selected columns of the row that inserting a record produces. -/
def recordFields (rec : Record) : SelectedRow :=
  { name := rec.name, cca2 := rec.cca2, cca3 := rec.cca3,
    region := some rec.region, population := rec.population, area := rec.area }

/-- Embeds DatabaseManager.get_all_data (src/app.py lines 88-91): SELECT of
    the six data columns over the whole table, rows in stored order. With a
    None connection pd.read_sql_query fails. -/
def get_all_data (conn : Option Conn) (st : DbState) : Except PyErr (List SelectedRow) :=
  match conn with
  | none => .error .pandasNoCon
  | some _ => .ok (st.table.map rowFields)

/-- WHERE clause of the aggregation CTE (src/app.py lines 104-105):
    region IS NOT NULL AND region != two single quotes. -/
def keepRow (r : Row) : Bool :=
  match r.region with
  | none => false
  | some s => s != ""

/-- Rows surviving the WHERE clause, in scan (insertion) order. -/
def filteredRows (t : List Row) : List Row :=
  t.filter keepRow

/-- Surviving rows tagged with their scan position; the position is the
    tie-break order of the window sorts. -/
def indexedRows (t : List Row) : List (Nat × Row) :=
  (filteredRows t).enum

/-- Membership test of one window partition (PARTITION BY region). -/
def inPartition (g : String) (p : Nat × Row) : Bool :=
  p.2.region == some g

/-- The window partition of region g, in scan order. -/
def partRows (t : List Row) (g : String) : List (Nat × Row) :=
  (indexedRows t).filter (inPartition g)

/-- Strict total order realized by ORDER BY population DESC inside a
    partition: larger population first, the scan order deciding peers. -/
def beforeDesc (a b : Nat × Row) : Bool :=
  decide (b.2.population < a.2.population ∨
    (a.2.population = b.2.population ∧ a.1 < b.1))

/-- Strict total order realized by ORDER BY population ASC inside a
    partition: smaller population first, the scan order deciding peers. -/
def beforeAsc (a b : Nat × Row) : Bool :=
  decide (a.2.population < b.2.population ∨
    (a.2.population = b.2.population ∧ a.1 < b.1))

/-- The rank_desc column: ROW_NUMBER gives row p one plus the number of rows
    of its partition placed before it by the window order. -/
def rankDesc (part : List (Nat × Row)) (p : Nat × Row) : Nat :=
  1 + part.countP (fun q => beforeDesc q p)

/-- The rank_asc column, dually. -/
def rankAsc (part : List (Nat × Row)) (p : Nat × Row) : Nat :=
  1 + part.countP (fun q => beforeAsc q p)

/-- Row selected by MAX(CASE WHEN rank_desc = 1 THEN ... END) for region g:
    the single row of the partition whose rank_desc is 1 (the MAX aggregate
    over one non-NULL value is that value). -/
def rank1Desc (t : List Row) (g : String) : Option Row :=
  ((partRows t g).find? (fun p => rankDesc (partRows t g) p == 1)).map Prod.snd

/-- Row selected by MAX(CASE WHEN rank_asc = 1 THEN ... END) for region g. -/
def rank1Asc (t : List Row) (g : String) : Option Row :=
  ((partRows t g).find? (fun p => rankAsc (partRows t g) p == 1)).map Prod.snd

/-- The total_pop column: SUM(population) OVER (PARTITION BY region). -/
def totalPop (t : List Row) (g : String) : Int :=
  ((partRows t g).map (fun p => p.2.population)).sum

/-- First-occurrence deduplication, giving the distinct grouping keys of
    GROUP BY region in scan order. -/
def dedupKeys : List String → List String
  | [] => []
  | g :: gs => g :: (dedupKeys gs).filter (fun x => x != g)

/-- Distinct non-null non-empty regions present in the table, in order of
    first occurrence. Grouping by (region, total_pop) coincides with grouping
    by region because total_pop is constant on a partition. -/
def regionKeys (t : List Row) : List String :=
  dedupKeys ((filteredRows t).filterMap Row.region)

/-- One output line of get_aggregated_stats (src/app.py lines 107-112):
    region, total population, name and population of the rank_desc 1 row,
    name and population of the rank_asc 1 row. The four CASE columns are
    NULL-able in SQL, hence Option. -/
structure RegionSummary where
  region : String
  total_population : Int
  largest_country : Option String
  largest_population : Option Int
  smallest_country : Option String
  smallest_population : Option Int
deriving DecidableEq

/-- The SELECT line of the outer aggregation query for one region. -/
def mkSummary (t : List Row) (g : String) : RegionSummary :=
  { region := g,
    total_population := totalPop t g,
    largest_country := (rank1Desc t g).map Row.name,
    largest_population := (rank1Desc t g).map Row.population,
    smallest_country := (rank1Asc t g).map Row.name,
    smallest_population := (rank1Asc t g).map Row.population }

/-- Inserts an element into a sorted list in front of the first element it
    compares no worse than. -/
def insertLe {α : Type} (le : α → α → Bool) (a : α) : List α → List α
  | [] => [a]
  | b :: bs => if le a b then a :: b :: bs else b :: insertLe le a bs

/-- Insertion sort by a Boolean comparison (structural, so that concrete
    runs of the embedded queries reduce inside the kernel). -/
def sortByLe {α : Type} (le : α → α → Bool) : List α → List α
  | [] => []
  | a :: as => insertLe le a (sortByLe le as)

/-- Comparison realizing ORDER BY total_pop DESC on summaries. -/
def summaryGe (a b : RegionSummary) : Bool :=
  decide (b.total_population ≤ a.total_population)

/-- Result rows of the aggregation query of get_aggregated_stats (src/app.py
    lines 93-117) over the stored rows: one summary per distinct non-null
    non-empty region, ordered by total population descending. -/
def aggregateRows (t : List Row) : List RegionSummary :=
  sortByLe summaryGe ((regionKeys t).map (mkSummary t))

/-- Embeds DatabaseManager.get_aggregated_stats: runs the aggregation query
    through pd.read_sql_query; with a None connection pandas fails. -/
def get_aggregated_stats (conn : Option Conn) (st : DbState) :
    Except PyErr (List RegionSummary) :=
  match conn with
  | none => .error .pandasNoCon
  | some _ => .ok (aggregateRows st.table)

/-- Outcome of DatabaseManager._connect (src/app.py lines 24-37) together
    with its observable effects: the connection handle finally stored in
    self.conn, the number of psycopg2.connect calls made, the total units
    slept, and whether the st.error banner was shown. -/
structure ConnectResult where
  conn : Option Conn
  attempts : Nat
  sleepUnits : Nat
  errorShown : Bool
deriving DecidableEq

/-- Loop body of _connect from attempt index i: try psycopg2.connect (the
    oracle outcome gives the verdict of attempt i); on success store the
    connection and return; on failure time.sleep(2) and continue; after five
    failures fall out of the loop and show the st.error banner, leaving
    self.conn as the None set by the constructor. -/
def connectFrom (outcome : Nat → Bool) (i : Nat) (slept : Nat) : ConnectResult :=
  if h : i < 5 then
    if outcome i then
      { conn := some (), attempts := i + 1, sleepUnits := slept, errorShown := false }
    else
      connectFrom outcome (i + 1) (slept + 2)
  else
    { conn := none, attempts := 5, sleepUnits := slept, errorShown := true }
termination_by 5 - i

/-- Embeds DatabaseManager.__init__ plus _connect: self.conn starts as None
    and _connect runs its five-attempt loop. -/
def connect (outcome : Nat → Bool) : ConnectResult :=
  connectFrom outcome 0 0

/-- Nested object item.get("name", {}) of a RestCountries country. -/
structure NameField where
  common : Option String
deriving DecidableEq

/-- One country object of the RestCountries response, with every consulted
    field possibly absent (src/app.py lines 131-138 read them with .get). -/
structure ApiItem where
  name : Option NameField
  cca2 : Option String
  cca3 : Option String
  region : Option String
  population : Option Int
  area : Option Int
deriving DecidableEq

/-- The tuple built for one country object (src/app.py lines 131-138):
    item.get("name", {}).get("common", "N/A"), item.get("cca2", ""),
    item.get("cca3", ""), item.get("region", "Other"),
    item.get("population", 0), item.get("area", 0). -/
def normalizeItem (item : ApiItem) : Record :=
  { name := ((item.name.getD { common := none }).common).getD "N/A",
    cca2 := item.cca2.getD "",
    cca3 := item.cca3.getD "",
    region := item.region.getD "Other",
    population := item.population.getD 0,
    area := item.area.getD 0 }

/-- Embeds the success path of fetch_api_data (src/app.py lines 121-144): the
    DataFrame built from the parsed JSON array, one tuple per source object
    in source order. The except branch (transport or parse failure) returns
    an empty frame and is outside the claims about the success path. -/
def fetch_api_data (data : List ApiItem) : List Record :=
  data.map normalizeItem

/-- Nested object entry["country"] of a World Bank data entry. -/
structure WBCountryField where
  value : String
deriving DecidableEq

/-- One entry of the World Bank series: value (population, null for sparse
    years), date (the year; int(entry["date"]) is embedded as the integer the
    JSON string denotes), and the country label object. -/
structure WBEntry where
  value : Option Int
  date : Int
  country : WBCountryField
deriving DecidableEq

/-- Shape of data[1] in the World Bank response as tested by
    len(data) > 1 and isinstance(data[1], list) (src/app.py line 155). -/
inductive WBSecond where
  | absent : WBSecond
  | nonList : WBSecond
  | entries : List WBEntry → WBSecond
deriving DecidableEq

/-- One row of the history frame (src/app.py lines 159-163). -/
structure HistoryPoint where
  country : String
  year : Int
  population : Int
deriving DecidableEq

/-- Row built from one entry when its value is not None, as the loop body
    does; entries with a null value produce nothing. -/
def entryPoint (e : WBEntry) : Option HistoryPoint :=
  e.value.map (fun v =>
    { country := e.country.value, year := e.date, population := v })

/-- The rows list accumulated by the loop of get_population_world_bank. -/
def historyRows (es : List WBEntry) : List HistoryPoint :=
  es.filterMap entryPoint

/-- Comparison realizing sort_values("year") ascending. -/
def yearLe (a b : HistoryPoint) : Bool :=
  decide (a.year ≤ b.year)

/-- Embeds get_population_world_bank (src/app.py lines 147-168) applied to a
    parsed response. When data[1] is missing or not a list the function
    returns None. Otherwise it filters and maps the entries; if no row
    survives, pd.DataFrame(rows) has no year column and sort_values("year")
    raises a KeyError that the surrounding except turns into None; with at
    least one row it returns the frame sorted ascending by year. -/
def get_population_world_bank (second : WBSecond) : Option (List HistoryPoint) :=
  match second with
  | .entries es =>
    match historyRows es with
    | [] => none
    | p :: ps => some (sortByLe yearLe (p :: ps))
  | _ => none

/-- Sample records used to run the embedded operations on concrete inputs. -/
def recAX : Record :=
  { name := "Alpha", cca2 := "AL", cca3 := "ALP", region := "X",
    population := 5, area := 10 }

/-- Sample record in region X tied on population with recCX. -/
def recBX : Record :=
  { name := "Beta", cca2 := "BE", cca3 := "BET", region := "X",
    population := 9, area := 20 }

/-- Sample record in region X tied on population with recBX. -/
def recCX : Record :=
  { name := "Gamma", cca2 := "GA", cca3 := "GAM", region := "X",
    population := 9, area := 30 }

/-- Sample record in region Y. -/
def recDY : Record :=
  { name := "Delta", cca2 := "DE", cca3 := "DEL", region := "Y",
    population := 2, area := 40 }

/-- Sample stored row with a NULL region. -/
def rowNull : Row :=
  { id := 90, name := "NullLand", cca2 := "NL", cca3 := "NLL", region := none,
    population := 7, area := 1 }

/-- Sample stored row with an empty-string region. -/
def rowEmpty : Row :=
  { id := 91, name := "EmptyLand", cca2 := "EL", cca3 := "ELL",
    region := some "", population := 8, area := 2 }

/-- Sample table: four inserted records plus a NULL-region and an
    empty-region row. -/
def demoTable : List Row :=
  insertRows 1 [recAX, recBX, recCX, recDY] ++ [rowNull, rowEmpty]

/-- Sample RestCountries object with every field absent. -/
def itemBare : ApiItem :=
  { name := none, cca2 := none, cca3 := none, region := none,
    population := none, area := none }

/-- Sample RestCountries object with every field present. -/
def itemFull : ApiItem :=
  { name := some { common := some "Chile" }, cca2 := some "CL",
    cca3 := some "CHL", region := some "Americas",
    population := some 19, area := some 756 }

/-- Sample World Bank entry with a null value (sparse year). -/
def entryNull : WBEntry :=
  { value := none, date := 2000, country := { value := "Testland" } }

/-- Sample World Bank entry with a value. -/
def entryVal : WBEntry :=
  { value := some 500, date := 2001, country := { value := "Testland" } }

/-! ### Generic helper lemmas: unique find, minimal elements, insertion sort -/

theorem find?_of_unique {α : Type} (pred : α → Bool) (l : List α) (a : α)
    (ha : a ∈ l) (hpa : pred a = true)
    (huniq : ∀ x ∈ l, pred x = true → x = a) : l.find? pred = some a := by
  induction l with
  | nil => cases ha
  | cons x xs ih =>
    by_cases hx : pred x = true
    · have hxa : x = a := huniq x (List.mem_cons_self x xs) hx
      rw [List.find?_cons_of_pos _ hx, hxa]
    · have hax : a ∈ xs := by
        rcases List.mem_cons.mp ha with h | h
        · exact absurd (h ▸ hpa) hx
        · exact h
      rw [List.find?_cons_of_neg _ hx]
      exact ih hax (fun y hy hpy => huniq y (List.mem_cons_of_mem _ hy) hpy)

theorem exists_no_pred {α : Type} (b : α → α → Bool)
    (hirr : ∀ a, b a a = false)
    (htr : ∀ x y z, b x y = true → b y z = true → b x z = true) :
    ∀ l : List α, l ≠ [] → ∃ p ∈ l, ∀ q ∈ l, b q p = false := by
  intro l
  induction l with
  | nil => intro h; exact absurd rfl h
  | cons x xs ih =>
    intro _
    by_cases hxs : xs = []
    · subst hxs
      refine ⟨x, List.mem_cons_self x [], ?_⟩
      intro q hq
      rcases List.mem_cons.mp hq with h | h
      · exact h ▸ hirr x
      · cases h
    · obtain ⟨p, hp, hmin⟩ := ih hxs
      by_cases hb : b x p = true
      · refine ⟨x, List.mem_cons_self x xs, ?_⟩
        intro q hq
        rcases List.mem_cons.mp hq with h | h
        · exact h ▸ hirr x
        · by_contra hqx
          have hqx' : b q x = true := by
            cases hqt : b q x with
            | true => rfl
            | false => exact absurd hqt hqx
          have : b q p = true := htr q x p hqx' hb
          rw [hmin q h] at this
          cases this
      · refine ⟨p, List.mem_cons_of_mem x hp, ?_⟩
        intro q hq
        rcases List.mem_cons.mp hq with h | h
        · subst h
          cases hqt : b q p with
          | true => exact absurd hqt hb
          | false => rfl
        · exact hmin q h

theorem insertLe_perm {α : Type} (le : α → α → Bool) (a : α) (l : List α) :
    (insertLe le a l).Perm (a :: l) := by
  induction l with
  | nil => exact List.Perm.refl _
  | cons b bs ih =>
    by_cases h : le a b = true
    · simp [insertLe, h]
    · simp only [insertLe, h, if_false]
      exact (ih.cons b).trans (List.Perm.swap a b bs)

theorem sortByLe_perm {α : Type} (le : α → α → Bool) (l : List α) :
    (sortByLe le l).Perm l := by
  induction l with
  | nil => exact List.Perm.refl _
  | cons a as ih =>
    exact (insertLe_perm le a (sortByLe le as)).trans (ih.cons a)

theorem mem_insertLe {α : Type} (le : α → α → Bool) (a x : α) (l : List α) :
    x ∈ insertLe le a l ↔ x = a ∨ x ∈ l := by
  rw [(insertLe_perm le a l).mem_iff]
  exact List.mem_cons

theorem pairwise_insertLe {α : Type} (le : α → α → Bool)
    (htr : ∀ x y z, le x y = true → le y z = true → le x z = true)
    (htot : ∀ x y, le x y = true ∨ le y x = true) (a : α) (l : List α)
    (hl : l.Pairwise (fun x y => le x y = true)) :
    (insertLe le a l).Pairwise (fun x y => le x y = true) := by
  induction l with
  | nil => simp [insertLe]
  | cons b bs ih =>
    rcases List.pairwise_cons.mp hl with ⟨hb, hbs⟩
    by_cases h : le a b = true
    · simp only [insertLe, h, if_true]
      refine List.pairwise_cons.mpr ⟨?_, hl⟩
      intro y hy
      rcases List.mem_cons.mp hy with hyb | hyb
      · exact hyb ▸ h
      · exact htr a b y h (hb y hyb)
    · simp only [insertLe, h, if_false]
      refine List.pairwise_cons.mpr ⟨?_, ih hbs⟩
      intro y hy
      rcases (mem_insertLe le a y bs).mp hy with hya | hyb
      · rw [hya]
        rcases htot a b with h1 | h1
        · exact absurd h1 h
        · exact h1
      · exact hb y hyb

theorem pairwise_sortByLe {α : Type} (le : α → α → Bool)
    (htr : ∀ x y z, le x y = true → le y z = true → le x z = true)
    (htot : ∀ x y, le x y = true ∨ le y x = true) (l : List α) :
    (sortByLe le l).Pairwise (fun x y => le x y = true) := by
  induction l with
  | nil => exact List.Pairwise.nil
  | cons a as ih => exact pairwise_insertLe le htr htot a (sortByLe le as) ih

/-! ### Enumeration and partition lemmas for the window embedding -/

theorem pairwise_fst_lt_enumFrom {α : Type} (l : List α) :
    ∀ n : Nat, (List.enumFrom n l).Pairwise (fun a b => a.1 < b.1) := by
  induction l with
  | nil => intro n; exact List.Pairwise.nil
  | cons x xs ih =>
    intro n
    refine List.pairwise_cons.mpr ⟨?_, ih (n + 1)⟩
    intro b hb
    obtain ⟨i, r⟩ := b
    have := (List.mem_enumFrom hb).1
    omega

theorem snd_mem_of_mem_enumFrom {α : Type} (l : List α) :
    ∀ (n : Nat) (p : Nat × α), p ∈ List.enumFrom n l → p.2 ∈ l := by
  induction l with
  | nil => intro n p h; cases h
  | cons x xs ih =>
    intro n p h
    rcases List.mem_cons.mp h with h1 | h1
    · rw [h1]; exact List.mem_cons_self x xs
    · exact List.mem_cons_of_mem x (ih (n + 1) p h1)

theorem mk_mem_enumFrom_of_mem {α : Type} (l : List α) (a : α) :
    a ∈ l → ∀ n : Nat, ∃ i, (i, a) ∈ List.enumFrom n l := by
  induction l with
  | nil => intro h; cases h
  | cons x xs ih =>
    intro h n
    rcases List.mem_cons.mp h with h1 | h1
    · exact ⟨n, h1 ▸ List.mem_cons_self (n, x) _⟩
    · obtain ⟨i, hi⟩ := ih h1 (n + 1)
      exact ⟨i, List.mem_cons_of_mem (n, x) hi⟩

theorem filter_enumFrom_map_snd {α : Type} (q : α → Bool) (l : List α) :
    ∀ n : Nat,
      ((List.enumFrom n l).filter (fun p => q p.2)).map Prod.snd = l.filter q := by
  induction l with
  | nil => intro n; rfl
  | cons x xs ih =>
    intro n
    by_cases hx : q x = true
    · simp only [List.enumFrom, List.filter_cons, hx, if_true]
      simp only [List.map_cons]
      exact congrArg (x :: ·) (ih (n + 1))
    · simp only [List.enumFrom, List.filter_cons, hx, if_false]
      simp only [Bool.false_eq_true, if_false]
      exact ih (n + 1)

theorem pairwise_fst_lt_partRows (t : List Row) (g : String) :
    (partRows t g).Pairwise (fun a b => a.1 < b.1) := by
  have h := pairwise_fst_lt_enumFrom (filteredRows t) 0
  simp only [partRows, indexedRows, List.enum]
  exact List.Pairwise.sublist (List.filter_sublist _) h

theorem fst_ne_of_mem_partRows (t : List Row) (g : String)
    (a b : Nat × Row) (ha : a ∈ partRows t g) (hb : b ∈ partRows t g)
    (hab : a ≠ b) : a.1 ≠ b.1 := by
  have hpw : (partRows t g).Pairwise (fun x y => x.1 ≠ y.1) :=
    (pairwise_fst_lt_partRows t g).imp (fun h => Nat.ne_of_lt h)
  exact hpw.forall (fun x y h => h.symm) ha hb hab

theorem mem_filteredRows_iff (t : List Row) (r : Row) :
    r ∈ filteredRows t ↔ r ∈ t ∧ ∃ s, r.region = some s ∧ s ≠ "" := by
  simp only [filteredRows, List.mem_filter]
  constructor
  · rintro ⟨hr, hk⟩
    refine ⟨hr, ?_⟩
    unfold keepRow at hk
    cases hreg : r.region with
    | none => rw [hreg] at hk; cases hk
    | some s =>
      rw [hreg] at hk
      exact ⟨s, rfl, bne_iff_ne.mp hk⟩
  · rintro ⟨hr, s, hs, hne⟩
    refine ⟨hr, ?_⟩
    unfold keepRow
    rw [hs]
    exact bne_iff_ne.mpr hne

theorem mem_partRows_of_mem (t : List Row) (g : String) (r : Row)
    (hr : r ∈ t) (hreg : r.region = some g) (hg : g ≠ "") :
    ∃ i, (i, r) ∈ partRows t g := by
  have hf : r ∈ filteredRows t := (mem_filteredRows_iff t r).mpr ⟨hr, g, hreg, hg⟩
  obtain ⟨i, hi⟩ := mk_mem_enumFrom_of_mem (filteredRows t) r hf 0
  refine ⟨i, ?_⟩
  simp only [partRows, indexedRows, List.enum]
  refine List.mem_filter.mpr ⟨hi, ?_⟩
  simp only [inPartition]
  exact beq_iff_eq.mpr hreg

theorem mem_partRows_elim (t : List Row) (g : String) (p : Nat × Row)
    (hp : p ∈ partRows t g) : p.2 ∈ t ∧ p.2.region = some g := by
  have hp' := List.mem_filter.mp hp
  have hmem : p ∈ List.enumFrom 0 (filteredRows t) := hp'.1
  have hsnd : p.2 ∈ filteredRows t :=
    snd_mem_of_mem_enumFrom (filteredRows t) 0 p hmem
  have hreg : p.2.region = some g := by
    have := hp'.2
    simp only [inPartition] at this
    exact beq_iff_eq.mp this
  exact ⟨((mem_filteredRows_iff t p.2).mp hsnd).1, hreg⟩

theorem partRows_map_snd (t : List Row) (g : String) :
    (partRows t g).map Prod.snd = (filteredRows t).filter (fun r => r.region == some g) := by
  simp only [partRows, indexedRows, List.enum, inPartition]
  exact filter_enumFrom_map_snd (fun r => r.region == some g) (filteredRows t) 0

theorem filter_region_filteredRows (t : List Row) (g : String) (hg : g ≠ "") :
    (filteredRows t).filter (fun r => r.region == some g) =
      t.filter (fun r => r.region == some g) := by
  simp only [filteredRows, List.filter_filter]
  refine List.filter_congr ?_
  intro r _
  cases hb : (r.region == some g) with
  | false => simp
  | true =>
    have hreg : r.region = some g := beq_iff_eq.mp hb
    have hk : keepRow r = true := by
      unfold keepRow
      rw [hreg]
      exact bne_iff_ne.mpr hg
    rw [hk]
    rfl

theorem totalPop_eq_sum (t : List Row) (g : String) (hg : g ≠ "") :
    totalPop t g = ((t.filter (fun r => r.region == some g)).map Row.population).sum := by
  unfold totalPop
  have h1 : (partRows t g).map (fun p => p.2.population) =
      ((partRows t g).map Prod.snd).map Row.population := by
    rw [List.map_map]
    rfl
  rw [h1, partRows_map_snd, filter_region_filteredRows t g hg]

/-! ### Properties of the window orders and the rank-one rows -/

theorem beforeDesc_irrefl (a : Nat × Row) : beforeDesc a a = false := by
  simp only [beforeDesc, decide_eq_false_iff_not]
  omega

theorem beforeDesc_trans (x y z : Nat × Row)
    (h1 : beforeDesc x y = true) (h2 : beforeDesc y z = true) :
    beforeDesc x z = true := by
  simp only [beforeDesc, decide_eq_true_eq] at h1 h2 ⊢
  omega

theorem beforeDesc_total (x y : Nat × Row) (h : x.1 ≠ y.1) :
    beforeDesc x y = true ∨ beforeDesc y x = true := by
  simp only [beforeDesc, decide_eq_true_eq]
  omega

theorem not_beforeDesc_iff (q p : Nat × Row) :
    beforeDesc q p = false ↔
      (q.2.population ≤ p.2.population ∧
        (q.2.population = p.2.population → p.1 ≤ q.1)) := by
  simp only [beforeDesc, decide_eq_false_iff_not]
  omega

theorem beforeAsc_irrefl (a : Nat × Row) : beforeAsc a a = false := by
  simp only [beforeAsc, decide_eq_false_iff_not]
  omega

theorem beforeAsc_trans (x y z : Nat × Row)
    (h1 : beforeAsc x y = true) (h2 : beforeAsc y z = true) :
    beforeAsc x z = true := by
  simp only [beforeAsc, decide_eq_true_eq] at h1 h2 ⊢
  omega

theorem beforeAsc_total (x y : Nat × Row) (h : x.1 ≠ y.1) :
    beforeAsc x y = true ∨ beforeAsc y x = true := by
  simp only [beforeAsc, decide_eq_true_eq]
  omega

theorem not_beforeAsc_iff (q p : Nat × Row) :
    beforeAsc q p = false ↔
      (p.2.population ≤ q.2.population ∧
        (q.2.population = p.2.population → p.1 ≤ q.1)) := by
  simp only [beforeAsc, decide_eq_false_iff_not]
  omega

theorem rank1_core (b : Nat × Row → Nat × Row → Bool)
    (hirr : ∀ a, b a a = false)
    (htr : ∀ x y z, b x y = true → b y z = true → b x z = true)
    (htot : ∀ x y : Nat × Row, x.1 ≠ y.1 → b x y = true ∨ b y x = true)
    (part : List (Nat × Row))
    (hpw : part.Pairwise (fun x y => x.1 ≠ y.1))
    (hne : part ≠ []) :
    ∃ p ∈ part,
      part.find? (fun x => 1 + part.countP (fun q => b q x) == 1) = some p ∧
      ∀ q ∈ part, b q p = false := by
  obtain ⟨p, hp, hmin⟩ := exists_no_pred b hirr htr part hne
  have hfst : ∀ x ∈ part, ∀ y ∈ part, x ≠ y → x.1 ≠ y.1 :=
    fun x hx y hy hxy => hpw.forall (fun u v h => h.symm) hx hy hxy
  have hcount : part.countP (fun q => b q p) = 0 :=
    List.countP_eq_zero.mpr (fun a ha => by rw [hmin a ha]; simp)
  have hpred : (1 + part.countP (fun q => b q p) == 1) = true := by
    rw [hcount]
    rfl
  have huniq : ∀ x ∈ part, (1 + part.countP (fun q => b q x) == 1) = true → x = p := by
    intro x hx hpx
    by_contra hxp
    have hzero : part.countP (fun q => b q x) = 0 := by
      have := beq_iff_eq.mp hpx
      omega
    have hnopred : ∀ q ∈ part, ¬ b q x = true := List.countP_eq_zero.mp hzero
    rcases htot x p (hfst x hx p hp hxp) with h1 | h1
    · have := hmin x hx
      rw [this] at h1
      cases h1
    · exact hnopred p hp h1
  exact ⟨p, hp, find?_of_unique _ part p hp hpred huniq, hmin⟩

theorem rank1Desc_spec (t : List Row) (g : String) (hne : partRows t g ≠ []) :
    ∃ p ∈ partRows t g, rank1Desc t g = some p.2 ∧
      (∀ q ∈ partRows t g, q.2.population ≤ p.2.population) ∧
      (∀ q ∈ partRows t g,
        q.2.population = p.2.population → p.1 ≤ q.1) := by
  have hpw : (partRows t g).Pairwise (fun x y => x.1 ≠ y.1) :=
    (pairwise_fst_lt_partRows t g).imp (fun h => Nat.ne_of_lt h)
  obtain ⟨p, hp, hfind, hmin⟩ :=
    rank1_core beforeDesc beforeDesc_irrefl beforeDesc_trans beforeDesc_total
      (partRows t g) hpw hne
  refine ⟨p, hp, ?_, ?_, ?_⟩
  · simp only [rank1Desc, rankDesc]
    rw [hfind]
    rfl
  · intro q hq
    exact ((not_beforeDesc_iff q p).mp (hmin q hq)).1
  · intro q hq hq2
    exact ((not_beforeDesc_iff q p).mp (hmin q hq)).2 hq2

theorem rank1Asc_spec (t : List Row) (g : String) (hne : partRows t g ≠ []) :
    ∃ p ∈ partRows t g, rank1Asc t g = some p.2 ∧
      (∀ q ∈ partRows t g, p.2.population ≤ q.2.population) ∧
      (∀ q ∈ partRows t g,
        q.2.population = p.2.population → p.1 ≤ q.1) := by
  have hpw : (partRows t g).Pairwise (fun x y => x.1 ≠ y.1) :=
    (pairwise_fst_lt_partRows t g).imp (fun h => Nat.ne_of_lt h)
  obtain ⟨p, hp, hfind, hmin⟩ :=
    rank1_core beforeAsc beforeAsc_irrefl beforeAsc_trans beforeAsc_total
      (partRows t g) hpw hne
  refine ⟨p, hp, ?_, ?_, ?_⟩
  · simp only [rank1Asc, rankAsc]
    rw [hfind]
    rfl
  · intro q hq
    exact ((not_beforeAsc_iff q p).mp (hmin q hq)).1
  · intro q hq hq2
    exact ((not_beforeAsc_iff q p).mp (hmin q hq)).2 hq2

/-! ### Grouping keys and the assembled aggregation result -/

theorem mem_dedupKeys (l : List String) (x : String) :
    x ∈ dedupKeys l ↔ x ∈ l := by
  induction l with
  | nil => simp [dedupKeys]
  | cons g gs ih =>
    simp only [dedupKeys, List.mem_cons]
    constructor
    · rintro (h | h)
      · exact Or.inl h
      · exact Or.inr (ih.mp (List.mem_filter.mp h).1)
    · rintro (h | h)
      · exact Or.inl h
      · by_cases hxg : x = g
        · exact Or.inl hxg
        · refine Or.inr (List.mem_filter.mpr ⟨ih.mpr h, ?_⟩)
          exact bne_iff_ne.mpr hxg

theorem nodup_dedupKeys (l : List String) : (dedupKeys l).Nodup := by
  induction l with
  | nil => exact List.nodup_nil
  | cons g gs ih =>
    simp only [dedupKeys]
    refine List.Pairwise.cons ?_ (ih.filter _)
    intro x hx
    have := (List.mem_filter.mp hx).2
    exact (bne_iff_ne.mp this).symm

theorem mem_regionKeys (t : List Row) (g : String) :
    g ∈ regionKeys t ↔ (g ≠ "" ∧ ∃ r ∈ t, r.region = some g) := by
  unfold regionKeys
  rw [mem_dedupKeys, List.mem_filterMap]
  constructor
  · rintro ⟨r, hr, hreg⟩
    obtain ⟨hrt, s, hs, hsne⟩ := (mem_filteredRows_iff t r).mp hr
    rw [hreg] at hs
    have : g = s := Option.some.inj hs
    exact ⟨this ▸ hsne, r, hrt, hreg⟩
  · rintro ⟨hg, r, hrt, hreg⟩
    exact ⟨r, (mem_filteredRows_iff t r).mpr ⟨hrt, g, hreg, hg⟩, hreg⟩

theorem partRows_ne_nil (t : List Row) (g : String) (hg : g ∈ regionKeys t) :
    partRows t g ≠ [] := by
  obtain ⟨hne, r, hrt, hreg⟩ := (mem_regionKeys t g).mp hg
  obtain ⟨i, hi⟩ := mem_partRows_of_mem t g r hrt hreg hne
  exact List.ne_nil_of_mem hi

theorem map_region_mkSummary (t : List Row) (gs : List String) :
    (gs.map (mkSummary t)).map RegionSummary.region = gs := by
  induction gs with
  | nil => rfl
  | cons g gs ih =>
    simp only [List.map_cons]
    exact congrArg (g :: ·) ih

theorem aggregateRows_perm (t : List Row) :
    (aggregateRows t).Perm ((regionKeys t).map (mkSummary t)) :=
  sortByLe_perm summaryGe _

theorem mem_aggregateRows_iff (t : List Row) (s : RegionSummary) :
    s ∈ aggregateRows t ↔ ∃ g ∈ regionKeys t, s = mkSummary t g := by
  rw [(aggregateRows_perm t).mem_iff, List.mem_map]
  constructor
  · rintro ⟨g, hg, hs⟩
    exact ⟨g, hg, hs.symm⟩
  · rintro ⟨g, hg, hs⟩
    exact ⟨g, hg, hs.symm⟩

theorem regions_aggregateRows_perm (t : List Row) :
    ((aggregateRows t).map RegionSummary.region).Perm (regionKeys t) := by
  have h := (aggregateRows_perm t).map RegionSummary.region
  rw [map_region_mkSummary t (regionKeys t)] at h
  exact h

theorem summaryGe_trans (x y z : RegionSummary)
    (h1 : summaryGe x y = true) (h2 : summaryGe y z = true) :
    summaryGe x z = true := by
  simp only [summaryGe, decide_eq_true_eq] at h1 h2 ⊢
  omega

theorem summaryGe_total (x y : RegionSummary) :
    summaryGe x y = true ∨ summaryGe y x = true := by
  simp only [summaryGe, decide_eq_true_eq]
  omega

theorem sorted_aggregateRows (t : List Row) :
    (aggregateRows t).Pairwise
      (fun a b => b.total_population ≤ a.total_population) := by
  have h := pairwise_sortByLe summaryGe summaryGe_trans summaryGe_total
    ((regionKeys t).map (mkSummary t))
  exact h.imp (fun hab => by
    simpa only [summaryGe, decide_eq_true_eq] using hab)

theorem aggregateRows_eq_nil (t : List Row)
    (h : ∀ r ∈ t, r.region = none ∨ r.region = some "") :
    aggregateRows t = [] := by
  have hfil : filteredRows t = [] := by
    unfold filteredRows
    rw [List.filter_eq_nil_iff]
    intro r hr
    unfold keepRow
    rcases h r hr with h1 | h1 <;> rw [h1] <;> simp
  unfold aggregateRows regionKeys
  rw [hfil]
  rfl

/-! ### Write-path and history helper lemmas -/

theorem firstFailure_eq_none (insOk : Record → Bool) (records : List Record)
    (hok : ∀ r ∈ records, insOk r = true) :
    firstFailure insOk records = none := by
  induction records with
  | nil => rfl
  | cons rec recs ih =>
    simp only [firstFailure, hok rec (List.mem_cons_self rec recs), if_true]
    rw [ih (fun r hr => hok r (List.mem_cons_of_mem rec hr))]
    rfl

theorem save_data_ok (c : Conn) (st : DbState) (records : List Record)
    (insOk : Record → Bool) (hok : ∀ r ∈ records, insOk r = true) :
    save_data (some c) st records insOk =
      ({ table := insertRows st.nextId records,
         nextId := st.nextId + records.length }, none) := by
  simp only [save_data, init_db, firstFailure_eq_none insOk records hok]

theorem save_data_err (c : Conn) (st : DbState) (records : List Record)
    (insOk : Record → Bool) (i : Nat) (hfail : firstFailure insOk records = some i) :
    save_data (some c) st records insOk =
      ({ table := [], nextId := st.nextId + i + 1 }, some (.insertFailed i)) := by
  simp only [save_data, init_db, hfail]

theorem insertRows_length (records : List Record) :
    ∀ n : Nat, (insertRows n records).length = records.length := by
  induction records with
  | nil => intro n; rfl
  | cons rec recs ih =>
    intro n
    simp only [insertRows, List.length_cons]
    rw [ih (n + 1)]

theorem insertRows_map_rowFields (records : List Record) :
    ∀ n : Nat, (insertRows n records).map rowFields = records.map recordFields := by
  induction records with
  | nil => intro n; rfl
  | cons rec recs ih =>
    intro n
    simp only [insertRows, List.map_cons]
    rw [ih (n + 1)]
    rfl

theorem mem_insertRows_id_ge (records : List Record) :
    ∀ (n : Nat) (r : Row), r ∈ insertRows n records → n ≤ r.id := by
  induction records with
  | nil => intro n r h; cases h
  | cons rec recs ih =>
    intro n r h
    rcases List.mem_cons.mp h with h1 | h1
    · rw [h1]; exact Nat.le_refl n
    · exact Nat.le_of_succ_le (ih (n + 1) r h1)

theorem pairwise_id_insertRows (records : List Record) :
    ∀ n : Nat, (insertRows n records).Pairwise (fun a b => a.id < b.id) := by
  induction records with
  | nil => intro n; exact List.Pairwise.nil
  | cons rec recs ih =>
    intro n
    refine List.pairwise_cons.mpr ⟨?_, ih (n + 1)⟩
    intro b hb
    exact Nat.lt_of_succ_le (mem_insertRows_id_ge recs (n + 1) b hb)

theorem historyRows_length (es : List WBEntry) :
    (historyRows es).length = es.countP (fun e => e.value.isSome) := by
  induction es with
  | nil => rfl
  | cons e es ih =>
    cases hv : e.value with
    | none =>
      have hep : entryPoint e = none := by simp [entryPoint, hv]
      simp only [historyRows] at ih ⊢
      rw [List.filterMap_cons_none hep, List.countP_cons, ih]
      simp [hv]
    | some v =>
      have hep : entryPoint e =
          some { country := e.country.value, year := e.date, population := v } := by
        simp [entryPoint, hv]
      simp only [historyRows] at ih ⊢
      rw [List.filterMap_cons_some hep, List.countP_cons, List.length_cons, ih]
      simp [hv]

theorem mem_historyRows_iff (es : List WBEntry) (p : HistoryPoint) :
    p ∈ historyRows es ↔
      ∃ e ∈ es, e.value = some p.population ∧ e.date = p.year ∧
        e.country.value = p.country := by
  unfold historyRows
  rw [List.mem_filterMap]
  constructor
  · rintro ⟨e, he, hp⟩
    unfold entryPoint at hp
    cases hv : e.value with
    | none => rw [hv] at hp; cases hp
    | some v =>
      rw [hv] at hp
      simp only [Option.map_some', Option.some.injEq] at hp
      refine ⟨e, he, ?_, ?_, ?_⟩
      · rw [hv, ← hp]
      · rw [← hp]
      · rw [← hp]
  · rintro ⟨e, he, hv, hd, hc⟩
    refine ⟨e, he, ?_⟩
    unfold entryPoint
    rw [hv]
    simp only [Option.map_some', Option.some.injEq]
    cases p
    simp only at hv hd hc
    simp [hd, hc]

theorem wb_entries_some (es : List WBEntry) (h : historyRows es ≠ []) :
    get_population_world_bank (.entries es) = some (sortByLe yearLe (historyRows es)) := by
  cases hrows : historyRows es with
  | nil => exact absurd hrows h
  | cons p ps =>
    have hdef : get_population_world_bank (.entries es) =
        (match historyRows es with
         | [] => none
         | q :: qs => some (sortByLe yearLe (q :: qs))) := rfl
    rw [hdef, hrows]

theorem yearLe_trans (x y z : HistoryPoint)
    (h1 : yearLe x y = true) (h2 : yearLe y z = true) : yearLe x z = true := by
  simp only [yearLe, decide_eq_true_eq] at h1 h2 ⊢
  omega

theorem yearLe_total (x y : HistoryPoint) :
    yearLe x y = true ∨ yearLe y x = true := by
  simp only [yearLe, decide_eq_true_eq]
  omega

theorem connectFrom_attempts_le (outcome : Nat → Bool) :
    ∀ (k i slept : Nat), 5 ≤ i + k →
      (connectFrom outcome i slept).attempts ≤ 5 := by
  intro k
  induction k with
  | zero =>
    intro i slept h
    rw [connectFrom]
    have hi : ¬ i < 5 := by omega
    simp [hi]
  | succ k ih =>
    intro i slept h
    rw [connectFrom]
    by_cases hi : i < 5
    · simp only [hi, dif_pos]
      cases ho : outcome i with
      | true => simp only [if_true]; omega
      | false =>
        simp only [Bool.false_eq_true, if_false]
        exact ih (i + 1) (slept + 2) (by omega)
    · simp [hi]

theorem connect_all_fail (outcome : Nat → Bool)
    (h : ∀ i, i < 5 → outcome i = false) :
    connect outcome =
      { conn := none, attempts := 5, sleepUnits := 10, errorShown := true } := by
  have h0 := h 0 (by omega)
  have h1 := h 1 (by omega)
  have h2 := h 2 (by omega)
  have h3 := h 3 (by omega)
  have h4 := h 4 (by omega)
  unfold connect
  rw [connectFrom]
  simp only [show (0:Nat) < 5 by omega, dif_pos, h0, Bool.false_eq_true, if_false]
  rw [connectFrom]
  simp only [show (1:Nat) < 5 by omega, dif_pos, h1, Bool.false_eq_true, if_false]
  rw [connectFrom]
  simp only [show (2:Nat) < 5 by omega, dif_pos, h2, Bool.false_eq_true, if_false]
  rw [connectFrom]
  simp only [show (3:Nat) < 5 by omega, dif_pos, h3, Bool.false_eq_true, if_false]
  rw [connectFrom]
  simp only [show (4:Nat) < 5 by omega, dif_pos, h4, Bool.false_eq_true, if_false]
  rw [connectFrom]
  simp [show ¬ (5:Nat) < 5 by omega]

/-! ### Claim theorems -/

/-- C8: on the success path, fetch_api_data maps each source object to a
    record applying exactly the defaults name N/A, cca2 and cca3 empty,
    region Other, population 0, area 0 for absent fields, preserves present
    fields, and drops no record, so the output has one record per source
    object. -/
theorem C8_fetch_api_defaults (data : List ApiItem) :
    (fetch_api_data data).length = data.length ∧
    (∀ i : Nat, (fetch_api_data data)[i]? = (data[i]?).map normalizeItem) ∧
    (∀ item : ApiItem,
      ((item.name = none ∨ item.name = some { common := none }) →
        (normalizeItem item).name = "N/A") ∧
      (∀ s, item.name = some { common := some s } → (normalizeItem item).name = s) ∧
      (item.cca2 = none → (normalizeItem item).cca2 = "") ∧
      (∀ s, item.cca2 = some s → (normalizeItem item).cca2 = s) ∧
      (item.cca3 = none → (normalizeItem item).cca3 = "") ∧
      (∀ s, item.cca3 = some s → (normalizeItem item).cca3 = s) ∧
      (item.region = none → (normalizeItem item).region = "Other") ∧
      (∀ s, item.region = some s → (normalizeItem item).region = s) ∧
      (item.population = none → (normalizeItem item).population = 0) ∧
      (∀ v, item.population = some v → (normalizeItem item).population = v) ∧
      (item.area = none → (normalizeItem item).area = 0) ∧
      (∀ v, item.area = some v → (normalizeItem item).area = v)) := by
  refine ⟨?_, ?_, ?_⟩
  · simp [fetch_api_data]
  · intro i
    simp [fetch_api_data, List.getElem?_map]
  · intro item
    refine ⟨?_, ?_, ?_, ?_, ?_, ?_, ?_, ?_, ?_, ?_, ?_, ?_⟩
    · rintro (h | h) <;> simp [normalizeItem, h]
    · intro s h; simp [normalizeItem, h]
    · intro h; simp [normalizeItem, h]
    · intro s h; simp [normalizeItem, h]
    · intro h; simp [normalizeItem, h]
    · intro s h; simp [normalizeItem, h]
    · intro h; simp [normalizeItem, h]
    · intro s h; simp [normalizeItem, h]
    · intro h; simp [normalizeItem, h]
    · intro v h; simp [normalizeItem, h]
    · intro h; simp [normalizeItem, h]
    · intro v h; simp [normalizeItem, h]

/-- Witness for C8 at a concrete two-object array: the bare object yields the
    all-default record, the full object is preserved, and the count is 2. -/
theorem C8_fetch_api_defaults_witness :
    fetch_api_data [itemBare, itemFull] =
      [{ name := "N/A", cca2 := "", cca3 := "", region := "Other",
         population := 0, area := 0 },
       { name := "Chile", cca2 := "CL", cca3 := "CHL", region := "Americas",
         population := 19, area := 756 }] ∧
    (fetch_api_data [itemBare, itemFull]).length = [itemBare, itemFull].length :=
  ⟨by decide, (C8_fetch_api_defaults [itemBare, itemFull]).1⟩

/-- C10: the i-th record produced by fetch_api_data is the normalization of
    the i-th source object, and a successful save_data stores the records in
    that same order with strictly increasing auto-increment ids, so stored id
    order equals original fetch order. -/
theorem C10_insertion_order (data : List ApiItem) (c : Conn) (st : DbState)
    (insOk : Record → Bool)
    (hok : ∀ r ∈ fetch_api_data data, insOk r = true) :
    (∀ i : Nat, (fetch_api_data data)[i]? = (data[i]?).map normalizeItem) ∧
    ((save_data (some c) st (fetch_api_data data) insOk).1.table.map rowFields =
      (fetch_api_data data).map recordFields) ∧
    ((save_data (some c) st (fetch_api_data data) insOk).1.table.Pairwise
      (fun a b => a.id < b.id)) := by
  have hs := save_data_ok c st (fetch_api_data data) insOk hok
  refine ⟨?_, ?_, ?_⟩
  · intro i
    simp [fetch_api_data, List.getElem?_map]
  · rw [hs]
    exact insertRows_map_rowFields (fetch_api_data data) st.nextId
  · rw [hs]
    exact pairwise_id_insertRows (fetch_api_data data) st.nextId

/-- Witness for C10 at a concrete array and empty table: the stored rows
    project to the fetched records in order and their ids increase. -/
theorem C10_insertion_order_witness :
    (∀ r ∈ fetch_api_data [itemBare, itemFull], (fun _ => true) r = true) ∧
    ((save_data (some ()) { table := [], nextId := 1 }
        (fetch_api_data [itemBare, itemFull]) (fun _ => true)).1.table.map rowFields =
      (fetch_api_data [itemBare, itemFull]).map recordFields) :=
  ⟨by decide,
    (C10_insertion_order [itemBare, itemFull] () { table := [], nextId := 1 }
      (fun _ => true) (by decide)).2.1⟩

/-- C5: a successful save_data (full refresh) leaves the table holding
    exactly the loaded records - same count, fields of each stored row coming
    from a loaded record - and the resulting table does not depend on the
    prior table contents, so no prior row survives regardless of the size of
    the prior snapshot. -/
theorem C5_full_refresh (c : Conn) (st : DbState) (records : List Record)
    (insOk : Record → Bool) (hok : ∀ r ∈ records, insOk r = true) :
    (save_data (some c) st records insOk).2 = none ∧
    (save_data (some c) st records insOk).1.table.length = records.length ∧
    (∀ row ∈ (save_data (some c) st records insOk).1.table,
      ∃ rec ∈ records, rowFields row = recordFields rec) ∧
    (∀ st2 : DbState, st2.nextId = st.nextId →
      (save_data (some c) st2 records insOk).1 =
        (save_data (some c) st records insOk).1) := by
  have hs := save_data_ok c st records insOk hok
  refine ⟨?_, ?_, ?_, ?_⟩
  · rw [hs]
  · rw [hs]
    exact insertRows_length records st.nextId
  · intro row hrow
    rw [hs] at hrow
    have hmem : rowFields row ∈ (insertRows st.nextId records).map rowFields :=
      List.mem_map_of_mem rowFields hrow
    rw [insertRows_map_rowFields records st.nextId] at hmem
    obtain ⟨rec, hrec, heq⟩ := List.mem_map.mp hmem
    exact ⟨rec, hrec, heq.symm⟩
  · intro st2 hn
    rw [hs, save_data_ok c st2 records insOk hok, hn]

/-- Witness for C5: reloading a one-record snapshot over a three-row prior
    table leaves exactly one row, and the result equals the reload over an
    empty prior table. -/
theorem C5_full_refresh_witness :
    (∀ r ∈ [recDY], (fun _ => true) r = true) ∧
    (save_data (some ()) { table := demoTable, nextId := 7 } [recDY]
      (fun _ => true)).1.table.length = [recDY].length ∧
    (∀ st2 : DbState, st2.nextId = 7 →
      (save_data (some ()) st2 [recDY] (fun _ => true)).1 =
        (save_data (some ()) { table := demoTable, nextId := 7 } [recDY]
          (fun _ => true)).1) :=
  ⟨by decide,
    (C5_full_refresh () { table := demoTable, nextId := 7 } [recDY]
      (fun _ => true) (by decide)).2.1,
    (C5_full_refresh () { table := demoTable, nextId := 7 } [recDY]
      (fun _ => true) (by decide)).2.2.2⟩

/-- C6: for a non-empty snapshot, load followed by the full read returns
    exactly the records written: the read succeeds, returns one output row
    per record, and the i-th output row carries the six field values of the
    i-th loaded record. -/
theorem C6_round_trip (c : Conn) (st : DbState) (records : List Record)
    (insOk : Record → Bool) (_hne : records ≠ [])
    (hok : ∀ r ∈ records, insOk r = true) :
    get_all_data (some c) (save_data (some c) st records insOk).1 =
      Except.ok (records.map recordFields) ∧
    (records.map recordFields).length = records.length ∧
    (∀ i : Nat, (records.map recordFields)[i]? = (records[i]?).map recordFields) := by
  refine ⟨?_, by simp, fun i => List.getElem?_map recordFields records i⟩
  rw [save_data_ok c st records insOk hok]
  simp only [get_all_data]
  rw [insertRows_map_rowFields records st.nextId]

/-- Witness for C6 on a concrete two-record snapshot over a non-empty prior
    table: the full read returns exactly the two written records. -/
theorem C6_round_trip_witness :
    ([recAX, recDY] ≠ []) ∧
    get_all_data (some ())
        (save_data (some ()) { table := [rowNull], nextId := 3 } [recAX, recDY]
          (fun _ => true)).1 =
      Except.ok ([recAX, recDY].map recordFields) :=
  ⟨by decide,
    (C6_round_trip () { table := [rowNull], nextId := 3 } [recAX, recDY]
      (fun _ => true) (by decide) (by decide)).1⟩

/-- C3 counterexample: with one stored row and a one-record batch whose
    insert fails, save_data leaves the committed table empty - neither
    unchanged (the prior row is gone, truncated by the separately committed
    init_db) nor fully loaded - so truncate and insert are not one atomic
    transaction and a failed insert does leave the table empty-but-truncated. -/
theorem C3_counterexample :
    (save_data (some ()) { table := [toRow 0 recAX], nextId := 1 } [recBX]
      (fun _ => false)).1.table = [] ∧
    (save_data (some ()) { table := [toRow 0 recAX], nextId := 1 } [recBX]
      (fun _ => false)).2 = some (PyErr.insertFailed 0) ∧
    (save_data (some ()) { table := [toRow 0 recAX], nextId := 1 } [recBX]
      (fun _ => false)).1.table ≠ [toRow 0 recAX] ∧
    (save_data (some ()) { table := [toRow 0 recAX], nextId := 1 } [recBX]
      (fun _ => false)).1.table ≠ insertRows 1 [recBX] := by
  decide

/-- C3 amended: the truncation performed through init_db is committed on its
    own before the bulk insert; the insert batch itself is all-or-nothing -
    if every record is accepted the table holds exactly the inserted rows,
    and if some record fails nothing of the batch is committed and the
    underlying database exception surfaces unwrapped - so a failure during
    the insert leaves the table empty (truncated), not unchanged. -/
theorem C3_truncate_committed_separately (c : Conn) (st : DbState)
    (records : List Record) (insOk : Record → Bool) :
    ((∀ r ∈ records, insOk r = true) →
      save_data (some c) st records insOk =
        ({ table := insertRows st.nextId records,
           nextId := st.nextId + records.length }, none)) ∧
    (∀ i : Nat, firstFailure insOk records = some i →
      (save_data (some c) st records insOk).1.table = [] ∧
      (save_data (some c) st records insOk).2 = some (PyErr.insertFailed i)) := by
  refine ⟨fun hok => save_data_ok c st records insOk hok, ?_⟩
  intro i hfail
  rw [save_data_err c st records insOk i hfail]
  exact ⟨rfl, rfl⟩

/-- Witness for the amended C3: a fully accepted batch is committed whole,
    and a batch rejected at its first record leaves the empty table with the
    database error surfaced. -/
theorem C3_truncate_committed_separately_witness :
    save_data (some ()) { table := [rowNull], nextId := 4 } [recAX, recDY]
        (fun _ => true) =
      ({ table := insertRows 4 [recAX, recDY], nextId := 6 }, none) ∧
    (save_data (some ()) { table := [rowNull], nextId := 4 } [recAX, recDY]
        (fun _ => false)).1.table = [] :=
  ⟨(C3_truncate_committed_separately () { table := [rowNull], nextId := 4 }
      [recAX, recDY] (fun _ => true)).1 (by decide),
    ((C3_truncate_committed_separately () { table := [rowNull], nextId := 4 }
      [recAX, recDY] (fun _ => false)).2 0 (by decide)).1⟩

/-- C4 counterexample: after a failed connection the stored handle is None
    and init_db fails by raising an AttributeError on it; neither that
    message nor the pandas failure of the read paths contains the words
    "not connected", so the operations do not fail with a clear
    not-connected error. -/
theorem C4_counterexample :
    init_db none { table := [], nextId := 0 } =
      ({ table := [], nextId := 0 }, some PyErr.attrNoneCursor) ∧
    containsChars "not connected".toList
      (pyErrMsg PyErr.attrNoneCursor).toList = false ∧
    containsChars "not connected".toList
      (pyErrMsg PyErr.pandasNoCon).toList = false := by
  decide

/-- C4 amended: construction attempts the connection at most five times,
    sleeping two units after each failed attempt (ten units when all five
    fail); after total failure the error banner is shown and the handle stays
    None, and every storage operation on the None handle fails immediately
    without any further connection attempt - but by raising on the null
    connection (AttributeError or pandas failure), not with a message
    mentioning "not connected". -/
theorem C4_connect_retry_fail_fast (outcome : Nat → Bool) (st : DbState)
    (records : List Record) (insOk : Record → Bool)
    (hfail : ∀ i, i < 5 → outcome i = false) :
    connect outcome =
      { conn := none, attempts := 5, sleepUnits := 10, errorShown := true } ∧
    (∀ oc : Nat → Bool, (connect oc).attempts ≤ 5) ∧
    init_db none st = (st, some PyErr.attrNoneCursor) ∧
    save_data none st records insOk = (st, some PyErr.attrNoneCursor) ∧
    get_all_data none st = Except.error PyErr.pandasNoCon ∧
    get_aggregated_stats none st = Except.error PyErr.pandasNoCon ∧
    containsChars "not connected".toList
      (pyErrMsg PyErr.attrNoneCursor).toList = false := by
  refine ⟨connect_all_fail outcome hfail, ?_, rfl, rfl, rfl, rfl, by decide⟩
  intro oc
  exact connectFrom_attempts_le oc 5 0 0 (by omega)

/-- Witness for the amended C4 with the always-failing connection oracle. -/
theorem C4_connect_retry_fail_fast_witness :
    connect (fun _ => false) =
      { conn := none, attempts := 5, sleepUnits := 10, errorShown := true } ∧
    get_all_data none { table := [], nextId := 0 } =
      Except.error PyErr.pandasNoCon :=
  ⟨(C4_connect_retry_fail_fast (fun _ => false) { table := [], nextId := 0 }
      [] (fun _ => true) (fun _ _ => rfl)).1,
    (C4_connect_retry_fail_fast (fun _ => false) { table := [], nextId := 0 }
      [] (fun _ => true) (fun _ _ => rfl)).2.2.2.2.1⟩

/-- C9: when the second element of the response is a list but no entry
    survives the null-value filter (empty list or all values null), the
    function returns None - the same result as for an absent or non-list
    second element - because sorting the empty frame raises and is caught. -/
theorem C9_no_survivors_none (es : List WBEntry)
    (h : historyRows es = []) :
    get_population_world_bank (WBSecond.entries es) = none ∧
    get_population_world_bank WBSecond.absent = none ∧
    get_population_world_bank WBSecond.nonList = none := by
  refine ⟨?_, rfl, rfl⟩
  have hdef : get_population_world_bank (WBSecond.entries es) =
      (match historyRows es with
       | [] => none
       | q :: qs => some (sortByLe yearLe (q :: qs))) := rfl
  rw [hdef, h]

/-- Witness for C9: a single all-null entry list and the empty entry list
    both give None. -/
theorem C9_no_survivors_none_witness :
    historyRows [entryNull] = [] ∧
    get_population_world_bank (WBSecond.entries [entryNull]) = none ∧
    get_population_world_bank (WBSecond.entries []) = none :=
  ⟨by decide, (C9_no_survivors_none [entryNull] (by decide)).1,
    (C9_no_survivors_none [] (by decide)).1⟩

/-- C7 counterexample: for the well-formed response whose second element is
    the one-entry list with a null value, every entry is dropped and the
    function returns None, not the (empty) sequence of surviving points
    sorted by year that the claim requires. -/
theorem C7_counterexample :
    get_population_world_bank (WBSecond.entries [entryNull]) = none ∧
    historyRows [entryNull] = [] ∧
    get_population_world_bank (WBSecond.entries [entryNull]) ≠
      some (sortByLe yearLe (historyRows [entryNull])) := by
  decide

/-- C7 amended: an absent or non-list second element yields None; a list of
    entries with at least one surviving (non-null-value) entry yields the
    surviving entries - exactly those whose value is not null, each carrying
    its own country label, year and value - sorted ascending by year; when
    no entry survives the result is None (see the no-survivors theorem). -/
theorem C7_history_normalization (es : List WBEntry)
    (hne : historyRows es ≠ []) :
    get_population_world_bank WBSecond.absent = none ∧
    get_population_world_bank WBSecond.nonList = none ∧
    ∃ pts, get_population_world_bank (WBSecond.entries es) = some pts ∧
      pts.Perm (historyRows es) ∧
      pts.Pairwise (fun a b => a.year ≤ b.year) ∧
      pts.length = es.countP (fun e => e.value.isSome) ∧
      (∀ e ∈ es, ∀ v : Int, e.value = some v →
        ({ country := e.country.value, year := e.date, population := v } :
          HistoryPoint) ∈ pts) ∧
      (∀ p ∈ pts, ∃ e ∈ es, e.value = some p.population ∧
        e.date = p.year ∧ e.country.value = p.country) := by
  refine ⟨rfl, rfl, sortByLe yearLe (historyRows es), wb_entries_some es hne,
    sortByLe_perm yearLe (historyRows es), ?_, ?_, ?_, ?_⟩
  · exact (pairwise_sortByLe yearLe yearLe_trans yearLe_total
      (historyRows es)).imp (fun h => by
        simpa only [yearLe, decide_eq_true_eq] using h)
  · rw [(sortByLe_perm yearLe (historyRows es)).length_eq]
    exact historyRows_length es
  · intro e he v hv
    rw [(sortByLe_perm yearLe (historyRows es)).mem_iff]
    exact (mem_historyRows_iff es _).mpr ⟨e, he, hv, rfl, rfl⟩
  · intro p hp
    rw [(sortByLe_perm yearLe (historyRows es)).mem_iff] at hp
    exact (mem_historyRows_iff es p).mp hp

/-- Witness for the amended C7 at the two-entry response from the
    specification example: only the 2001 point remains. -/
theorem C7_history_normalization_witness :
    historyRows [entryNull, entryVal] ≠ [] ∧
    get_population_world_bank (WBSecond.entries [entryNull, entryVal]) =
      some [{ country := "Testland", year := 2001, population := 500 }] :=
  ⟨by decide, by
    obtain ⟨-, -, pts, hpts, -⟩ :=
      C7_history_normalization [entryNull, entryVal] (by decide)
    rw [hpts]
    have : pts = [{ country := "Testland", year := 2001, population := 500 }] := by
      rw [show pts = sortByLe yearLe (historyRows [entryNull, entryVal]) from
        (Option.some.inj
          ((wb_entries_some [entryNull, entryVal] (by decide)).symm.trans hpts)).symm]
      decide
    rw [this]⟩

/-- C1: the aggregation returns one summary per distinct non-null non-empty
    region - rows with a null or empty region appear in no summary - with the
    total population the arithmetic sum over the region, the largest and
    smallest entries naming a maximum- and a minimum-population row of the
    region together with that population, the result ordered by total
    population descending, and the empty result when no row has a non-empty
    region. -/
theorem C1_region_aggregation (t : List Row) :
    ((aggregateRows t).map RegionSummary.region).Nodup ∧
    (∀ g : String, g ∈ (aggregateRows t).map RegionSummary.region ↔
      (g ≠ "" ∧ ∃ r ∈ t, r.region = some g)) ∧
    (∀ s ∈ aggregateRows t,
      s.total_population =
        ((t.filter (fun r => r.region == some s.region)).map Row.population).sum) ∧
    (∀ s ∈ aggregateRows t, ∃ r ∈ t, r.region = some s.region ∧
      s.largest_country = some r.name ∧
      s.largest_population = some r.population ∧
      ∀ q ∈ t, q.region = some s.region → q.population ≤ r.population) ∧
    (∀ s ∈ aggregateRows t, ∃ r ∈ t, r.region = some s.region ∧
      s.smallest_country = some r.name ∧
      s.smallest_population = some r.population ∧
      ∀ q ∈ t, q.region = some s.region → r.population ≤ q.population) ∧
    (aggregateRows t).Pairwise
      (fun s1 s2 => s2.total_population ≤ s1.total_population) ∧
    ((∀ r ∈ t, r.region = none ∨ r.region = some "") →
      aggregateRows t = []) := by
  refine ⟨?_, ?_, ?_, ?_, ?_, sorted_aggregateRows t, aggregateRows_eq_nil t⟩
  · exact ((regions_aggregateRows_perm t).nodup_iff).mpr (nodup_dedupKeys _)
  · intro g
    rw [(regions_aggregateRows_perm t).mem_iff]
    exact mem_regionKeys t g
  · intro s hs
    obtain ⟨g, hg, hseq⟩ := (mem_aggregateRows_iff t s).mp hs
    subst hseq
    have hgne : g ≠ "" := ((mem_regionKeys t g).mp hg).1
    have hreg : (mkSummary t g).region = g := rfl
    rw [hreg]
    have htp : (mkSummary t g).total_population = totalPop t g := rfl
    rw [htp, totalPop_eq_sum t g hgne]
  · intro s hs
    obtain ⟨g, hg, hseq⟩ := (mem_aggregateRows_iff t s).mp hs
    subst hseq
    have hgne : g ≠ "" := ((mem_regionKeys t g).mp hg).1
    obtain ⟨p, hp, hfind, hmax, -⟩ := rank1Desc_spec t g (partRows_ne_nil t g hg)
    obtain ⟨hpt, hpreg⟩ := mem_partRows_elim t g p hp
    have hreg : (mkSummary t g).region = g := rfl
    rw [hreg]
    refine ⟨p.2, hpt, hpreg, ?_, ?_, ?_⟩
    · show (rank1Desc t g).map Row.name = some p.2.name
      rw [hfind]
      rfl
    · show (rank1Desc t g).map Row.population = some p.2.population
      rw [hfind]
      rfl
    · intro q hqt hqreg
      obtain ⟨i, hi⟩ := mem_partRows_of_mem t g q hqt hqreg hgne
      exact hmax (i, q) hi
  · intro s hs
    obtain ⟨g, hg, hseq⟩ := (mem_aggregateRows_iff t s).mp hs
    subst hseq
    have hgne : g ≠ "" := ((mem_regionKeys t g).mp hg).1
    obtain ⟨p, hp, hfind, hmin, -⟩ := rank1Asc_spec t g (partRows_ne_nil t g hg)
    obtain ⟨hpt, hpreg⟩ := mem_partRows_elim t g p hp
    have hreg : (mkSummary t g).region = g := rfl
    rw [hreg]
    refine ⟨p.2, hpt, hpreg, ?_, ?_, ?_⟩
    · show (rank1Asc t g).map Row.name = some p.2.name
      rw [hfind]
      rfl
    · show (rank1Asc t g).map Row.population = some p.2.population
      rw [hfind]
      rfl
    · intro q hqt hqreg
      obtain ⟨i, hi⟩ := mem_partRows_of_mem t g q hqt hqreg hgne
      exact hmin (i, q) hi

/-- Witness for C1 on the sample table: the X and Y summaries come out with
    the right totals, extremes and descending order, and the null-region and
    empty-region rows appear nowhere. -/
theorem C1_region_aggregation_witness :
    aggregateRows demoTable =
      [{ region := "X", total_population := 23, largest_country := some "Beta",
         largest_population := some 9, smallest_country := some "Alpha",
         smallest_population := some 5 },
       { region := "Y", total_population := 2, largest_country := some "Delta",
         largest_population := some 2, smallest_country := some "Delta",
         smallest_population := some 2 }] ∧
    ((aggregateRows demoTable).map RegionSummary.region).Nodup ∧
    (aggregateRows demoTable).Pairwise
      (fun s1 s2 => s2.total_population ≤ s1.total_population) :=
  ⟨by decide, (C1_region_aggregation demoTable).1,
    (C1_region_aggregation demoTable).2.2.2.2.2.1⟩

/-- C2: when a region holds two rows with equal population, the rank-one row
    of each window (the one reported as largest, dually smallest) is the
    first row in the scan of the stored table - insertion order, which equals
    original fetch order - among those achieving the extreme population, and
    the aggregation is a function of the stored rows alone, so repeated runs
    over the same stored rows return the same summaries. -/
theorem C2_tie_break_deterministic (t : List Row) (g : String)
    (a b : Nat × Row) (ha : a ∈ partRows t g) (_hb : b ∈ partRows t g)
    (_hab : a ≠ b) (_hpop : a.2.population = b.2.population) :
    (filteredRows t).Sublist t ∧
    (∀ (c : Conn) (st : DbState), st.table = t →
      get_aggregated_stats (some c) st = Except.ok (aggregateRows t)) ∧
    (∃ p ∈ partRows t g, rank1Desc t g = some p.2 ∧
      (∀ q ∈ partRows t g, q.2.population ≤ p.2.population) ∧
      (∀ q ∈ partRows t g, q.2.population = p.2.population → p.1 ≤ q.1)) ∧
    (∃ p ∈ partRows t g, rank1Asc t g = some p.2 ∧
      (∀ q ∈ partRows t g, p.2.population ≤ q.2.population) ∧
      (∀ q ∈ partRows t g, q.2.population = p.2.population → p.1 ≤ q.1)) := by
  have hne : partRows t g ≠ [] := List.ne_nil_of_mem ha
  refine ⟨List.filter_sublist t, ?_, rank1Desc_spec t g hne, rank1Asc_spec t g hne⟩
  intro c st hst
  subst hst
  rfl

/-- Witness for C2 on the sample table: Beta and Gamma tie at population 9 in
    region X, and the window picks Beta, the tied row inserted first. -/
theorem C2_tie_break_deterministic_witness :
    ((1, toRow 2 recBX) ∈ partRows demoTable "X") ∧
    ((2, toRow 3 recCX) ∈ partRows demoTable "X") ∧
    (toRow 2 recBX).population = (toRow 3 recCX).population ∧
    (∃ p ∈ partRows demoTable "X", rank1Desc demoTable "X" = some p.2 ∧
      (∀ q ∈ partRows demoTable "X", q.2.population ≤ p.2.population) ∧
      (∀ q ∈ partRows demoTable "X",
        q.2.population = p.2.population → p.1 ≤ q.1)) ∧
    rank1Desc demoTable "X" = some (toRow 2 recBX) :=
  ⟨by decide, by decide, by decide,
    (C2_tie_break_deterministic demoTable "X" (1, toRow 2 recBX)
      (2, toRow 3 recCX) (by decide) (by decide) (by decide) (by decide)).2.2.1,
    by decide⟩
